import Mathlib

/-!
Verification of the transaction ledger and aggregation logic of
`src/main.py` (class `SmartBudgetApp`).

The Python program keeps its authoritative state in four in-memory
collections (`self.transactions`, `self.budget_limits`, `self.saving_goals`,
`self.regular_payments`).  Amounts are Python floats obtained from
`float(text.replace(',', '.'))`; we model them as exact rationals `ℚ`, and
we model that textual parse by an executable parser `parsePyFloat` covering
the finite decimal literals accepted by Python's `float` (optional
surrounding whitespace, optional sign, digits with an optional fractional
part and an optional exponent; `inf`/`nan` and digit underscores are not
modelled, they cannot arise from the inputs the claims are about).

Transactions carry their `type` and `category` as raw strings, exactly as
the dictionaries in the Python code do: the program appends whatever
strings it is given (the UI restricts them through combo boxes, while the
CSV import does not restrict them at all).
-/

namespace SmartBudget

/-- A transaction record, mirroring the dict built in
`SmartBudgetApp.add_transaction` (src/main.py:581-587): fields
`type`, `category`, `amount`, `date`, `description`. -/
structure Transaction where
  type : String
  category : String
  amount : ℚ
  date : String
  description : String
deriving DecidableEq

/-- A saving goal, mirroring the dict built in
`SmartBudgetApp.add_saving_goal` (src/main.py:1029-1034). -/
structure SavingGoal where
  name : String
  amount : ℚ
  target_date : String
  saved : ℚ
deriving DecidableEq

/-- A recurring payment, mirroring the dict built in
`SmartBudgetApp.add_regular_payment` (src/main.py:1200-1206). -/
structure RegularPayment where
  name : String
  amount : ℚ
  category : String
  frequency : String
  last_paid : Option String
deriving DecidableEq

/-- The four authoritative collections of the ledger
(src/main.py:131-139: `self.transactions`, `self.budget_limits`,
`self.saving_goals`, `self.regular_payments`).  The budget-limit dict is
modelled as an association list with unique keys in insertion order. -/
structure Store where
  transactions : List Transaction
  budget_limits : List (String × ℚ)
  saving_goals : List SavingGoal
  regular_payments : List RegularPayment
deriving DecidableEq

/-- The application state: the store plus a counter of `save_data` calls,
used to reason about how often a mutation persists the store. -/
structure AppState where
  store : Store
  saveCount : Nat
deriving DecidableEq

/-- The empty store (the state after startup with no data file). -/
def emptyStore : Store :=
  { transactions := [], budget_limits := [], saving_goals := [], regular_payments := [] }

/-- The empty application state. -/
def emptyState : AppState := { store := emptyStore, saveCount := 0 }

/-- The fixed category taxonomy `self.budget_categories`
(src/main.py:132-136): a two-key mapping from transaction type to the
ordered list of allowed category names. -/
def budget_categories : List (String × List String) :=
  [("Доход", ["Зарплата", "Фриланс", "Инвестиции", "Подарки", "Другое"]),
   ("Расход", ["Еда", "Транспорт", "Жилье", "Развлечения", "Здоровье",
               "Одежда", "Образование", "Другое"])]

/-- `self.budget_categories.get(transaction_type, [])` (src/main.py:555). -/
def categoriesFor (ty : String) : List String :=
  (budget_categories.lookup ty).getD []

/-- The invariant of §3 of the design: a transaction's category belongs to
the category list of its type. -/
def validTransaction (t : Transaction) : Bool :=
  (categoriesFor t.type).contains t.category

/-- Python's `str.strip()`: remove leading and trailing whitespace.
Implemented on character lists so that it evaluates in the kernel. -/
def trimChars (cs : List Char) : List Char :=
  ((cs.dropWhile Char.isWhitespace).reverse.dropWhile Char.isWhitespace).reverse

/-- Python's `text.replace(',', '.')`: replace every comma by a dot.  For
single-character patterns `str.replace` is a character map. -/
def replaceComma (cs : List Char) : List Char :=
  cs.map (fun c => if c = ',' then '.' else c)

/-- Python's `str.split(';')` on a single-character separator: splits into
the (possibly empty) chunks between separators; the empty string yields one
empty chunk, like `"".split(';') == [""]`. -/
def splitSemicolons : List Char → List (List Char)
  | [] => [[]]
  | c :: rest =>
    if c = ';' then [] :: splitSemicolons rest
    else
      match splitSemicolons rest with
      | [] => [[c]]
      | chunk :: chunks => (c :: chunk) :: chunks

/-- Value of a digit string, most significant digit first. -/
def digitsToNat (cs : List Char) : Nat :=
  cs.foldl (fun n c => 10 * n + (c.toNat - 48)) 0

/-- Parse an optional exponent suffix `e`/`E` followed by an optionally
signed digit string; the empty remainder means exponent `0`.  Any other
remainder makes the whole literal unparseable. -/
def parseExponent : List Char → Option Int
  | [] => some 0
  | c :: r =>
    if c = 'e' ∨ c = 'E' then
      let signed : Int × List Char :=
        match r with
        | '+' :: rr => (1, rr)
        | '-' :: rr => (-1, rr)
        | rr => (1, rr)
      let ds := signed.2.takeWhile Char.isDigit
      if ds.isEmpty || !(signed.2.dropWhile Char.isDigit).isEmpty then none
      else some (signed.1 * (digitsToNat ds : Int))
    else none

/-- Scale a rational by `10 ^ e` for an integer exponent `e`. -/
def applyExponent (q : ℚ) : Int → ℚ
  | Int.ofNat n => q * 10 ^ n
  | Int.negSucc n => q / 10 ^ (n + 1)

/-- Model of Python's `float(s)` on finite decimal literals, returning the
exact rational value: optional surrounding whitespace, optional sign, then
either `digits`, `digits.digits`, `digits.` or `.digits`, with an optional
exponent.  Returns `none` exactly when `float` raises `ValueError` on such
inputs. -/
def pyFloat (cs0 : List Char) : Option ℚ :=
  let cs := trimChars cs0
  let signBody : ℚ × List Char :=
    match cs with
    | '+' :: r => (1, r)
    | '-' :: r => (-1, r)
    | r => (1, r)
  let ip := signBody.2.takeWhile Char.isDigit
  let r1 := signBody.2.dropWhile Char.isDigit
  match r1 with
  | '.' :: r2 =>
    let fp := r2.takeWhile Char.isDigit
    let r3 := r2.dropWhile Char.isDigit
    if ip.isEmpty && fp.isEmpty then none
    else
      match parseExponent r3 with
      | none => none
      | some e =>
        some (signBody.1 *
          applyExponent ((digitsToNat ip : ℚ) + (digitsToNat fp : ℚ) / 10 ^ fp.length) e)
  | _ =>
    if ip.isEmpty then none
    else
      match parseExponent r1 with
      | none => none
      | some e => some (signBody.1 * applyExponent (digitsToNat ip : ℚ) e)

/-- `float(text.replace(',', '.'))`: the amount parse performed by every
mutation that reads a textual amount (src/main.py:572, 769, 1022, 1192,
1479). -/
def parseAmount (text : String) : Option ℚ :=
  pyFloat (replaceComma text.data)

/-- `sum(t["amount"] for t in self.transactions if t["type"] == "Доход")`
(src/main.py:1241, also computed at src/main.py:1335). -/
def total_income (ts : List Transaction) : ℚ :=
  ((ts.filter (fun t => t.type == "Доход")).map (fun t => t.amount)).sum

/-- `sum(t["amount"] for t in self.transactions if t["type"] == "Расход")`
(src/main.py:1242, also computed at src/main.py:1336). -/
def total_expense (ts : List Transaction) : ℚ :=
  ((ts.filter (fun t => t.type == "Расход")).map (fun t => t.amount)).sum

/-- `SmartBudgetApp.calculate_balance` (src/main.py:1334-1337): the two
aggregations are computed inline and subtracted. -/
def calculate_balance (ts : List Transaction) : ℚ :=
  ((ts.filter (fun t => t.type == "Доход")).map (fun t => t.amount)).sum
    - ((ts.filter (fun t => t.type == "Расход")).map (fun t => t.amount)).sum

/-- Goal progress as computed in `SmartBudgetApp.update_goals_table`
(src/main.py:1053):
`(goal["saved"] / goal["amount"]) * 100 if goal["amount"] > 0 else 0`. -/
def goal_progress (g : SavingGoal) : ℚ :=
  if g.amount > 0 then g.saved / g.amount * 100 else 0

/-- The three display classifications of a goal's progress. -/
inductive ProgressBand where
  | complete
  | near
  | behind
deriving DecidableEq

/-- The colour classification of `SmartBudgetApp.update_goals_table`
(src/main.py:1056-1061): `progress >= 100`, `elif progress >= 75`, `else`. -/
def progressBand (g : SavingGoal) : ProgressBand :=
  if goal_progress g ≥ 100 then ProgressBand.complete
  else if goal_progress g ≥ 75 then ProgressBand.near
  else ProgressBand.behind

/-- The only validation failure a mutation can report: the amount text did
not parse (`except ValueError` branches, e.g. src/main.py:573-575). -/
inductive VError where
  | invalidAmount
deriving DecidableEq

/-- `SmartBudgetApp.save_data` viewed from the store: rewriting the data
file does not change the in-memory collections; we count the calls. -/
def saveData (s : AppState) : AppState :=
  { s with saveCount := s.saveCount + 1 }

/-- `SmartBudgetApp.add_transaction` (src/main.py:569-598).  The function
parses the amount text with `float(text.replace(',', '.'))`; on
`ValueError` it shows a warning and returns with the state untouched.
Otherwise it appends the transaction dict built from its inputs verbatim
(no category check appears anywhere in the function) and calls
`save_data`.  The result pairs the new state with the reported error, if
any. -/
def add_transaction (s : AppState)
    (transaction_type category amountText date description : String) :
    AppState × Option VError :=
  match parseAmount amountText with
  | none => (s, some VError.invalidAmount)
  | some amount =>
    let t : Transaction :=
      { type := transaction_type, category := category, amount := amount,
        date := date, description := description }
    (saveData { s with store := { s.store with
        transactions := s.store.transactions ++ [t] } }, none)

/-- One step of the `defaultdict(float)` accumulation of
`SmartBudgetApp.update_pie_charts` (src/main.py:1314-1317):
`expense_categories[t["category"]] += t["amount"]`.  A missing key is
inserted at the end (Python dicts keep insertion order), an existing key
has the amount added in place. -/
def addToCategory (m : List (String × ℚ)) (cat : String) (a : ℚ) :
    List (String × ℚ) :=
  match m with
  | [] => [(cat, a)]
  | e :: rest =>
    if e.1 = cat then (e.1, e.2 + a) :: rest else e :: addToCategory rest cat a

/-- The loop body of the per-category accumulation: only transactions of
the requested type contribute (src/main.py:1315-1317). -/
def catStep (ty : String) (m : List (String × ℚ)) (t : Transaction) :
    List (String × ℚ) :=
  if t.type == ty then addToCategory m t.category t.amount else m

/-- `category_breakdown(type)`: the mapping category → summed amount over
the entire transaction history, as built by
`SmartBudgetApp.update_pie_charts` (src/main.py:1293-1317) for both
types. -/
def category_breakdown (ty : String) (ts : List Transaction) :
    List (String × ℚ) :=
  ts.foldl (catStep ty) []

/-- `spent` for one category with a set limit, from
`SmartBudgetApp.update_budget_limits_table` (src/main.py:783-784):
`sum(t['amount'] for t in self.transactions if t['type'] == 'Расход' and
t['category'] == category)` — the whole history, no period filter. -/
def spentFor (ts : List Transaction) (c : String) : ℚ :=
  ((ts.filter (fun t => t.type == "Расход" && t.category == c)).map
    (fun t => t.amount)).sum

/-- `budget_utilization()`: one `(category, limit, spent)` row per entry of
the budget-limit mapping (src/main.py:779-795). -/
def budget_utilization (s : Store) : List (String × ℚ × ℚ) :=
  s.budget_limits.map (fun p => (p.1, p.2, spentFor s.transactions p.1))

/-- The over-limit flag of src/main.py:790: `if spent > limit`. -/
def overLimitFlag (limit spent : ℚ) : Bool :=
  decide (spent > limit)

/-- The month key of a date string.  `SmartBudgetApp.update_chart`
(src/main.py:1256-1257) computes
`datetime.strptime(t["date"], "%Y-%m-%d").strftime("%Y-%m")`, which on a
well-formed zero-padded `YYYY-MM-DD` date equals its first seven
characters (on a malformed date `strptime` raises and the chart update
dies; such dates are excluded by the `validDate` hypothesis below). -/
def monthKey (d : String) : String :=
  String.mk (d.data.take 7)

/-- A well-formed zero-padded `YYYY-MM-DD` date: ten characters, digits
and dashes in the right positions, month `01`-`12`, day `01`-`31`.  This
is the shape on which `strptime("%Y-%m-%d")` succeeds (up to the
month-specific day maximum) and on which its reformatting to `"%Y-%m"`
equals the seven-character month key. -/
def validDate (s : String) : Bool :=
  match s.data with
  | [y1, y2, y3, y4, c1, m1, m2, c2, d1, d2] =>
    y1.isDigit && y2.isDigit && y3.isDigit && y4.isDigit &&
    c1 == '-' && m1.isDigit && m2.isDigit && c2 == '-' &&
    d1.isDigit && d2.isDigit &&
    decide (1 ≤ 10 * (m1.toNat - 48) + (m2.toNat - 48)) &&
    decide (10 * (m1.toNat - 48) + (m2.toNat - 48) ≤ 12) &&
    decide (1 ≤ 10 * (d1.toNat - 48) + (d2.toNat - 48)) &&
    decide (10 * (d1.toNat - 48) + (d2.toNat - 48) ≤ 31)
  | _ => false

/-- One `defaultdict` update of `SmartBudgetApp.update_chart`
(src/main.py:1259-1262): the amount is added to the month's `income` slot
when the type is `"Доход"`, and to its `expense` slot otherwise.  A
missing month key is inserted at the end, as Python dicts do. -/
def addToMonth (m : List (String × ℚ × ℚ)) (key : String) (isIncome : Bool)
    (a : ℚ) : List (String × ℚ × ℚ) :=
  match m with
  | [] => [(key, (if isIncome then a else 0), (if isIncome then 0 else a))]
  | e :: rest =>
    if e.1 = key then
      (e.1, (if isIncome then e.2.1 + a else e.2.1),
            (if isIncome then e.2.2 else e.2.2 + a)) :: rest
    else e :: addToMonth rest key isIncome a

/-- The loop body of src/main.py:1255-1262 for one transaction. -/
def monthStep (m : List (String × ℚ × ℚ)) (t : Transaction) :
    List (String × ℚ × ℚ) :=
  addToMonth m (monthKey t.date) (t.type == "Доход") t.amount

/-- The `months` dict after the loop of src/main.py:1255-1262. -/
def monthsDict (ts : List Transaction) : List (String × ℚ × ℚ) :=
  ts.foldl monthStep []

/-- `monthly_series()`: `sorted(months.items())` (src/main.py:1264).
Month keys are unique, so Python's sort orders the entries by key; any
correct sort of a list with pairwise-distinct keys yields the same list,
so insertion sort models it exactly. -/
def monthly_series (ts : List Transaction) : List (String × ℚ × ℚ) :=
  (monthsDict ts).insertionSort (fun a b => a.1 ≤ b.1)

/-- The income of one month: the sum of amounts of `"Доход"` transactions
whose date falls in that month. -/
def monthIncome (ts : List Transaction) (k : String) : ℚ :=
  ((ts.filter (fun t => t.type == "Доход" && monthKey t.date == k)).map
    (fun t => t.amount)).sum

/-- The value of the `else` branch of src/main.py:1259-1262 for one month:
the sum of amounts of all non-`"Доход"` transactions of that month. -/
def monthOther (ts : List Transaction) (k : String) : ℚ :=
  ((ts.filter (fun t => !(t.type == "Доход") && monthKey t.date == k)).map
    (fun t => t.amount)).sum

/-- Total of the income slots of the entries carrying key `k`. -/
def incAt (m : List (String × ℚ × ℚ)) (k : String) : ℚ :=
  ((m.filter (fun e => e.1 == k)).map (fun e => e.2.1)).sum

/-- Total of the expense slots of the entries carrying key `k`. -/
def expAt (m : List (String × ℚ × ℚ)) (k : String) : ℚ :=
  ((m.filter (fun e => e.1 == k)).map (fun e => e.2.2)).sum

/-- The keys of the accumulated month dict, in insertion order. -/
def keysOf (m : List (String × ℚ × ℚ)) : List String :=
  m.map Prod.fst

/-- The worked example of the design document: salary income in January,
food expenses in January and February. -/
def exampleTransactions : List Transaction :=
  [{ type := "Доход", category := "Зарплата", amount := 1000,
     date := "2024-01-05", description := "" },
   { type := "Расход", category := "Еда", amount := 200,
     date := "2024-01-10", description := "" },
   { type := "Расход", category := "Еда", amount := 50,
     date := "2024-02-01", description := "" }]

/-- One data row of `SmartBudgetApp.import_from_csv`
(src/main.py:1471-1491): `line.strip().split(';')`; rows with fewer than
five fields are skipped; the amount field goes through
`float(amount.replace(',', '.'))` and a `ValueError` skips the row;
otherwise the first five fields become a transaction verbatim (extra
fields are ignored by `parts[:5]`). -/
def parseCsvRow (line : String) : Option Transaction :=
  let parts := splitSemicolons (trimChars line.data)
  if parts.length < 5 then none
  else
    match parts with
    | date :: ty :: cat :: amountText :: desc :: _ =>
      match pyFloat (replaceComma amountText) with
      | none => none
      | some a =>
        some { type := String.mk ty, category := String.mk cat, amount := a,
               date := String.mk date, description := String.mk desc }
    | _ => none

/-- The per-line body of the import loop: a parsed row is appended to the
transaction sequence, a skipped row changes nothing. -/
def importStep (st : AppState) (line : String) : AppState :=
  match parseCsvRow line with
  | none => st
  | some t =>
    { st with store := { st.store with
        transactions := st.store.transactions ++ [t] } }

/-- `SmartBudgetApp.import_from_csv` (src/main.py:1458-1498) on the lines
of the chosen file: `next(f)` drops the header (an empty file raises,
which the surrounding `except` turns into no state change and no save);
every remaining line goes through `importStep`; `save_data` runs once
after the loop. -/
def import_from_csv (lines : List String) (s : AppState) : AppState :=
  match lines with
  | [] => s
  | _ :: rows => saveData (rows.foldl importStep s)

/-- A JSON document value, the shape written by `json.dump` in
`SmartBudgetApp.save_data` (src/main.py:1545-1556).  Numbers are the exact
rationals the store holds. -/
inductive Json where
  | null
  | num (q : ℚ)
  | str (s : String)
  | arr (items : List Json)
  | obj (fields : List (String × Json))

/-- Serialization of one transaction dict. -/
def encodeTransaction (t : Transaction) : Json :=
  Json.obj [("type", Json.str t.type), ("category", Json.str t.category),
            ("amount", Json.num t.amount), ("date", Json.str t.date),
            ("description", Json.str t.description)]

/-- Serialization of one saving-goal dict. -/
def encodeGoal (g : SavingGoal) : Json :=
  Json.obj [("name", Json.str g.name), ("amount", Json.num g.amount),
            ("target_date", Json.str g.target_date),
            ("saved", Json.num g.saved)]

/-- Serialization of one regular-payment dict; `None` becomes `null`. -/
def encodePayment (p : RegularPayment) : Json :=
  Json.obj [("name", Json.str p.name), ("amount", Json.num p.amount),
            ("category", Json.str p.category),
            ("frequency", Json.str p.frequency),
            ("last_paid", match p.last_paid with
              | none => Json.null
              | some d => Json.str d)]

/-- `SmartBudgetApp.save_data` (src/main.py:1545-1556): the persisted
document is a single object with the four named collections. -/
def save_data (s : Store) : Json :=
  Json.obj
    [("transactions", Json.arr (s.transactions.map encodeTransaction)),
     ("budget_limits",
       Json.obj (s.budget_limits.map (fun p => (p.1, Json.num p.2)))),
     ("saving_goals", Json.arr (s.saving_goals.map encodeGoal)),
     ("regular_payments", Json.arr (s.regular_payments.map encodePayment))]

/-- Field access on a JSON object, `data.get(key)`. -/
def jsonGet (j : Json) (key : String) : Option Json :=
  match j with
  | Json.obj fields => fields.lookup key
  | _ => none

/-- Read a JSON string. -/
def asStr : Json → Option String
  | Json.str v => some v
  | _ => none

/-- Read a JSON number. -/
def asNum : Json → Option ℚ
  | Json.num q => some q
  | _ => none

/-- Read a JSON string or null, the type of `last_paid`. -/
def asOptStr : Json → Option (Option String)
  | Json.null => some none
  | Json.str v => some (some v)
  | _ => none

/-- Decode every element of a JSON array. -/
def decodeList {α : Type} (dec : Json → Option α) :
    List Json → Option (List α)
  | [] => some []
  | j :: rest =>
    match dec j, decodeList dec rest with
    | some a, some l => some (a :: l)
    | _, _ => none

/-- Decode one transaction object (the fields the program reads back as
`t["type"]`, `t["category"]`, ...). -/
def decodeTransaction (j : Json) : Option Transaction :=
  match (jsonGet j "type").bind asStr, (jsonGet j "category").bind asStr,
        (jsonGet j "amount").bind asNum, (jsonGet j "date").bind asStr,
        (jsonGet j "description").bind asStr with
  | some ty, some cat, some a, some d, some de =>
    some { type := ty, category := cat, amount := a, date := d,
           description := de }
  | _, _, _, _, _ => none

/-- Decode one saving-goal object. -/
def decodeGoal (j : Json) : Option SavingGoal :=
  match (jsonGet j "name").bind asStr, (jsonGet j "amount").bind asNum,
        (jsonGet j "target_date").bind asStr,
        (jsonGet j "saved").bind asNum with
  | some n, some a, some d, some sv =>
    some { name := n, amount := a, target_date := d, saved := sv }
  | _, _, _, _ => none

/-- Decode one regular-payment object. -/
def decodePayment (j : Json) : Option RegularPayment :=
  match (jsonGet j "name").bind asStr, (jsonGet j "amount").bind asNum,
        (jsonGet j "category").bind asStr,
        (jsonGet j "frequency").bind asStr,
        (jsonGet j "last_paid").bind asOptStr with
  | some n, some a, some c, some f, some lp =>
    some { name := n, amount := a, category := c, frequency := f,
           last_paid := lp }
  | _, _, _, _, _ => none

/-- Decode the budget-limit mapping, key by key. -/
def decodeLimits : List (String × Json) → Option (List (String × ℚ))
  | [] => some []
  | (k, v) :: rest =>
    match asNum v, decodeLimits rest with
    | some q, some l => some ((k, q) :: l)
    | _, _ => none

/-- `SmartBudgetApp.load_data` (src/main.py:1533-1543): each of the four
collections is taken from its named field, a missing field defaulting to
the empty collection (`data.get(key, default)`). -/
def load_data (j : Json) : Option Store :=
  let txs : Option (List Transaction) :=
    match jsonGet j "transactions" with
    | some (Json.arr items) => decodeList decodeTransaction items
    | some _ => none
    | none => some []
  let limits : Option (List (String × ℚ)) :=
    match jsonGet j "budget_limits" with
    | some (Json.obj fields) => decodeLimits fields
    | some _ => none
    | none => some []
  let goals : Option (List SavingGoal) :=
    match jsonGet j "saving_goals" with
    | some (Json.arr items) => decodeList decodeGoal items
    | some _ => none
    | none => some []
  let pays : Option (List RegularPayment) :=
    match jsonGet j "regular_payments" with
    | some (Json.arr items) => decodeList decodePayment items
    | some _ => none
    | none => some []
  match txs, limits, goals, pays with
  | some a, some b, some c, some d =>
    some { transactions := a, budget_limits := b, saving_goals := c,
           regular_payments := d }
  | _, _, _, _ => none

/-- C1: for every transaction sequence, `calculate_balance` equals
`total_income` minus `total_expense`, the sums over Income and Expense
transactions of the full sequence. -/
theorem balance_eq_income_sub_expense (ts : List Transaction) :
    calculate_balance ts = total_income ts - total_expense ts := rfl

/-- C7: goal progress is `saved / amount * 100` when `amount > 0` and `0`
otherwise, and the display bands are: at least 100 `complete`, at least 75
`near`, otherwise `behind`.  `goal_progress` and `progressBand` are pure
functions of the goal, so computing them cannot change the store. -/
theorem goal_progress_spec (g : SavingGoal) :
    (g.amount > 0 → goal_progress g = g.saved / g.amount * 100)
    ∧ (¬ g.amount > 0 → goal_progress g = 0)
    ∧ (progressBand g = ProgressBand.complete ↔ 100 ≤ goal_progress g)
    ∧ (progressBand g = ProgressBand.near ↔
        75 ≤ goal_progress g ∧ goal_progress g < 100)
    ∧ (progressBand g = ProgressBand.behind ↔ goal_progress g < 75) := by
  have hpos : g.amount > 0 → goal_progress g = g.saved / g.amount * 100 := fun h => by
    simp [goal_progress, h]
  have hnp : ¬ g.amount > 0 → goal_progress g = 0 := fun h => by
    simp [goal_progress, h]
  refine ⟨hpos, hnp, ?_⟩
  unfold progressBand
  split_ifs with h1 h2
  · exact ⟨iff_of_true rfl h1,
      iff_of_false (by simp) (by rintro ⟨-, hlt⟩; exact absurd h1 (not_le.mpr hlt)),
      iff_of_false (by simp) (not_lt.mpr (by linarith))⟩
  · exact ⟨iff_of_false (by simp) h1,
      iff_of_true rfl ⟨h2, not_le.mp h1⟩,
      iff_of_false (by simp) (not_lt.mpr h2)⟩
  · exact ⟨iff_of_false (by simp) h1,
      iff_of_false (by simp) (fun h => h2 h.1),
      iff_of_true rfl (not_le.mp h2)⟩

/-- Witness for C7 at a concrete goal: amount `200`, saved `150`,
progress `75`, classified `near`. -/
theorem goal_progress_spec_witness :
    ((⟨"Отпуск", 200, "2024-12-31", 150⟩ : SavingGoal).amount > 0)
    ∧ goal_progress ⟨"Отпуск", 200, "2024-12-31", 150⟩ = 150 / 200 * 100 := by
  refine ⟨by norm_num, ?_⟩
  exact (goal_progress_spec ⟨"Отпуск", 200, "2024-12-31", 150⟩).1 (by norm_num)

/-- C3: if the amount text, after replacing comma with dot, parses as a
decimal number, `add_transaction` succeeds and appends exactly one
transaction carrying the parsed amount (the other collections are
untouched); if it does not parse, it fails with the validation error and
the whole store is unchanged. -/
theorem add_transaction_amount_parse (s : AppState)
    (ty cat txt date desc : String) :
    (∀ a : ℚ, parseAmount txt = some a →
      (add_transaction s ty cat txt date desc).2 = none
      ∧ (add_transaction s ty cat txt date desc).1.store.transactions
          = s.store.transactions
              ++ [{ type := ty, category := cat, amount := a, date := date,
                    description := desc }]
      ∧ (add_transaction s ty cat txt date desc).1.store.budget_limits
          = s.store.budget_limits
      ∧ (add_transaction s ty cat txt date desc).1.store.saving_goals
          = s.store.saving_goals
      ∧ (add_transaction s ty cat txt date desc).1.store.regular_payments
          = s.store.regular_payments)
    ∧ (parseAmount txt = none →
      add_transaction s ty cat txt date desc = (s, some VError.invalidAmount)) := by
  constructor
  · intro a ha
    simp [add_transaction, ha, saveData]
  · intro hn
    simp [add_transaction, hn]

/-- Witness for C3: adding a transaction with amount text `"99,50"` to the
empty state parses to `199/2` and appends exactly that transaction. -/
theorem add_transaction_amount_parse_witness :
    parseAmount "99,50" = some (199 / 2)
    ∧ (add_transaction emptyState "Расход" "Еда" "99,50" "2024-01-10" "обед").2
        = none
    ∧ (add_transaction emptyState "Расход" "Еда" "99,50" "2024-01-10"
        "обед").1.store.transactions
        = [{ type := "Расход", category := "Еда", amount := 199 / 2,
             date := "2024-01-10", description := "обед" }] := by
  have hp : parseAmount "99,50" = some (199 / 2) := by
    simp +decide [parseAmount, pyFloat, replaceComma, trimChars, parseExponent,
      digitsToNat, applyExponent]
    norm_num
  have h := (add_transaction_amount_parse emptyState "Расход" "Еда" "99,50"
    "2024-01-10" "обед").1 (199 / 2) hp
  exact ⟨hp, h.1, by rw [h.2.1]; rfl⟩

/-- C2 counterexample: the category `"Канцтовары"` is not in the expense
category list, yet `add_transaction` with that category and a parseable
amount reports no error and grows the transaction sequence by one — the
code never validates the category (src/main.py:569-598 contains only the
amount check). -/
theorem add_transaction_no_category_check_counterexample :
    ("Канцтовары" ∉ categoriesFor "Расход")
    ∧ (add_transaction emptyState "Расход" "Канцтовары" "5" "2024-01-01" "").2
        = none
    ∧ (add_transaction emptyState "Расход" "Канцтовары" "5" "2024-01-01"
        "").1.store.transactions.length
        = emptyState.store.transactions.length + 1 := by
  have hp : parseAmount "5" = some 5 := by
    simp +decide [parseAmount, pyFloat, replaceComma, trimChars, parseExponent,
      digitsToNat, applyExponent]
  refine ⟨by decide, ?_, ?_⟩
  · simp [add_transaction, hp]
  · simp [add_transaction, hp, saveData, emptyState, emptyStore]

/-- C2 as amended: `add_transaction` performs no category validation at
all.  For every category string — allowed or not — the call succeeds and
appends the transaction whenever the amount text parses; only an
unparseable amount is rejected, independently of the category. -/
theorem add_transaction_ignores_category (s : AppState)
    (ty cat txt date desc : String) (a : ℚ)
    (ha : parseAmount txt = some a) :
    (add_transaction s ty cat txt date desc).2 = none
    ∧ (add_transaction s ty cat txt date desc).1.store.transactions
        = s.store.transactions
            ++ [{ type := ty, category := cat, amount := a, date := date,
                  description := desc }] := by
  simp [add_transaction, ha, saveData]

/-- Witness for the amended C2, with a category outside the taxonomy. -/
theorem add_transaction_ignores_category_witness :
    parseAmount "5" = some 5
    ∧ (add_transaction emptyState "Расход" "Канцтовары" "5" "2024-01-01" "").2
        = none := by
  have hp : parseAmount "5" = some 5 := by
    simp +decide [parseAmount, pyFloat, replaceComma, trimChars, parseExponent,
      digitsToNat, applyExponent]
  exact ⟨hp, (add_transaction_ignores_category emptyState "Расход" "Канцтовары"
    "5" "2024-01-01" "" 5 hp).1⟩

theorem addToCategory_snd_sum (m : List (String × ℚ)) (cat : String) (a : ℚ) :
    ((addToCategory m cat a).map Prod.snd).sum = (m.map Prod.snd).sum + a := by
  induction m with
  | nil => simp [addToCategory]
  | cons e rest ih =>
    by_cases h : e.1 = cat
    · simp only [addToCategory, if_pos h, List.map_cons, List.sum_cons]
      ring
    · simp only [addToCategory, if_neg h, List.map_cons, List.sum_cons, ih]
      ring

theorem mem_keys_addToCategory (m : List (String × ℚ)) (cat d : String)
    (a : ℚ) :
    d ∈ (addToCategory m cat a).map Prod.fst
      ↔ d ∈ m.map Prod.fst ∨ d = cat := by
  induction m with
  | nil => simp [addToCategory]
  | cons e rest ih =>
    by_cases h : e.1 = cat
    · simp only [addToCategory, if_pos h, List.map_cons, List.mem_cons]
      rw [h]
      tauto
    · simp only [addToCategory, if_neg h, List.map_cons, List.mem_cons, ih]
      tauto

theorem foldl_catStep_sum (ty : String) (ts : List Transaction)
    (m : List (String × ℚ)) :
    ((ts.foldl (catStep ty) m).map Prod.snd).sum
      = (m.map Prod.snd).sum
          + ((ts.filter (fun t => t.type == ty)).map (fun t => t.amount)).sum := by
  induction ts generalizing m with
  | nil => simp
  | cons t ts ih =>
    by_cases h : t.type = ty
    · simp only [List.foldl_cons, catStep, h, beq_self_eq_true, if_pos,
        List.filter_cons_of_pos, List.map_cons, List.sum_cons, ih,
        addToCategory_snd_sum]
      ring
    · have hb : (t.type == ty) = false := by simp [h]
      simp only [List.foldl_cons, catStep, hb, Bool.false_eq_true, if_neg,
        not_false_eq_true, List.filter_cons_of_neg, ih]

theorem mem_keys_foldl_catStep (ty : String) (ts : List Transaction)
    (m : List (String × ℚ)) (d : String) :
    d ∈ (ts.foldl (catStep ty) m).map Prod.fst
      ↔ d ∈ m.map Prod.fst ∨ ∃ t ∈ ts, t.type = ty ∧ t.category = d := by
  induction ts generalizing m with
  | nil => simp
  | cons t ts ih =>
    by_cases h : t.type = ty
    · rw [List.foldl_cons,
        (by simp [catStep, h] :
          catStep ty m t = addToCategory m t.category t.amount),
        ih, mem_keys_addToCategory]
      constructor
      · rintro ((hm | he) | ⟨u, hu, hty, hcat⟩)
        · exact Or.inl hm
        · exact Or.inr ⟨t, List.mem_cons_self t ts, h, he.symm⟩
        · exact Or.inr ⟨u, List.mem_cons_of_mem t hu, hty, hcat⟩
      · rintro (hm | ⟨u, hu, hty, hcat⟩)
        · exact Or.inl (Or.inl hm)
        · rcases List.mem_cons.mp hu with rfl | hu'
          · exact Or.inl (Or.inr hcat.symm)
          · exact Or.inr ⟨u, hu', hty, hcat⟩
    · rw [List.foldl_cons, (by simp [catStep, h] : catStep ty m t = m), ih]
      constructor
      · rintro (hm | ⟨u, hu, hty, hcat⟩)
        · exact Or.inl hm
        · exact Or.inr ⟨u, List.mem_cons_of_mem t hu, hty, hcat⟩
      · rintro (hm | ⟨u, hu, hty, hcat⟩)
        · exact Or.inl hm
        · rcases List.mem_cons.mp hu with rfl | hu'
          · exact absurd hty h
          · exact Or.inr ⟨u, hu', hty, hcat⟩

/-- C5: the expense breakdown contains exactly the categories appearing in
at least one Expense transaction, and its values sum to
`total_expense`. -/
theorem category_breakdown_expense_spec (ts : List Transaction) :
    ((category_breakdown "Расход" ts).map Prod.snd).sum = total_expense ts
    ∧ ∀ c : String,
        c ∈ (category_breakdown "Расход" ts).map Prod.fst
          ↔ ∃ t ∈ ts, t.type = "Расход" ∧ t.category = c := by
  constructor
  · simpa [category_breakdown, total_expense] using
      foldl_catStep_sum "Расход" ts []
  · intro c
    simpa [category_breakdown] using mem_keys_foldl_catStep "Расход" ts [] c

/-- C6: for every category with a set budget limit, `budget_utilization`
reports `spent` equal to the sum of amounts of all Expense transactions of
that category over the entire history, and the over-limit flag holds
exactly when `spent` is strictly greater than the limit. -/
theorem budget_utilization_spec (s : Store) (c : String) (l : ℚ)
    (h : (c, l) ∈ s.budget_limits) :
    (c, l, ((s.transactions.filter
        (fun t => t.type == "Расход" && t.category == c)).map
          (fun t => t.amount)).sum) ∈ budget_utilization s
    ∧ ∀ spent : ℚ, overLimitFlag l spent = true ↔ l < spent := by
  constructor
  · exact List.mem_map.mpr ⟨(c, l), h, rfl⟩
  · intro spent
    simp [overLimitFlag]

/-- Witness for C6, matching the worked example of the design document:
limit `100` on `"Еда"` with expenses `200` and `50` gives the row
`("Еда", 100, 250)`, flagged over-limit. -/
theorem budget_utilization_spec_witness :
    (("Еда", (100 : ℚ)) ∈
        ({ emptyStore with
            budget_limits := [("Еда", 100)],
            transactions :=
              [{ type := "Расход", category := "Еда", amount := 200,
                 date := "2024-01-10", description := "" },
               { type := "Расход", category := "Еда", amount := 50,
                 date := "2024-02-01", description := "" }] } :
          Store).budget_limits)
    ∧ overLimitFlag 100 250 = true := by
  refine ⟨List.mem_singleton.mpr rfl, ?_⟩
  have h := (budget_utilization_spec
    { emptyStore with
        budget_limits := [("Еда", 100)],
        transactions :=
          [{ type := "Расход", category := "Еда", amount := 200,
             date := "2024-01-10", description := "" },
           { type := "Расход", category := "Еда", amount := 50,
             date := "2024-02-01", description := "" }] }
    "Еда" 100 (List.mem_singleton.mpr rfl)).2 250
  rw [h]
  norm_num

theorem incAt_addToMonth (m : List (String × ℚ × ℚ)) (key k : String)
    (b : Bool) (a : ℚ) :
    incAt (addToMonth m key b a) k
      = incAt m k + (if key = k then (if b then a else 0) else 0) := by
  induction m with
  | nil =>
    by_cases hk : key = k
    · subst hk
      cases b <;> simp [addToMonth, incAt]
    · simp [addToMonth, incAt, hk]
  | cons e rest ih =>
    by_cases he : e.1 = key
    · by_cases hk : key = k
      · subst hk
        cases b <;> simp [addToMonth, he, incAt] <;> ring
      · have hek : ¬ e.1 = k := he ▸ hk
        cases b <;> simp [addToMonth, he, incAt, hek, hk]
    · have hstep : addToMonth (e :: rest) key b a
          = e :: addToMonth rest key b a := by
        simp only [addToMonth, if_neg he]
      rw [hstep]
      unfold incAt at ih ⊢
      rw [List.filter_cons, List.filter_cons]
      by_cases hek : (e.1 == k) = true
      · rw [if_pos hek, if_pos hek, List.map_cons, List.map_cons,
          List.sum_cons, List.sum_cons, ih]
        ring
      · rw [if_neg hek, if_neg hek, ih]

theorem expAt_addToMonth (m : List (String × ℚ × ℚ)) (key k : String)
    (b : Bool) (a : ℚ) :
    expAt (addToMonth m key b a) k
      = expAt m k + (if key = k then (if b then 0 else a) else 0) := by
  induction m with
  | nil =>
    by_cases hk : key = k
    · subst hk
      cases b <;> simp [addToMonth, expAt]
    · simp [addToMonth, expAt, hk]
  | cons e rest ih =>
    by_cases he : e.1 = key
    · by_cases hk : key = k
      · subst hk
        cases b <;> simp [addToMonth, he, expAt] <;> ring
      · have hek : ¬ e.1 = k := he ▸ hk
        cases b <;> simp [addToMonth, he, expAt, hek, hk]
    · have hstep : addToMonth (e :: rest) key b a
          = e :: addToMonth rest key b a := by
        simp only [addToMonth, if_neg he]
      rw [hstep]
      unfold expAt at ih ⊢
      rw [List.filter_cons, List.filter_cons]
      by_cases hek : (e.1 == k) = true
      · rw [if_pos hek, if_pos hek, List.map_cons, List.map_cons,
          List.sum_cons, List.sum_cons, ih]
        ring
      · rw [if_neg hek, if_neg hek, ih]

theorem incAt_foldl (ts : List Transaction) (m : List (String × ℚ × ℚ))
    (k : String) :
    incAt (ts.foldl monthStep m) k = incAt m k + monthIncome ts k := by
  induction ts generalizing m with
  | nil => simp [monthIncome, incAt]
  | cons t ts ih =>
    rw [List.foldl_cons, ih, monthStep, incAt_addToMonth]
    have hsplit : monthIncome (t :: ts) k
        = (if (t.type == "Доход") && (monthKey t.date == k)
            then t.amount else 0) + monthIncome ts k := by
      unfold monthIncome
      rw [List.filter_cons]
      by_cases hc : ((t.type == "Доход") && (monthKey t.date == k)) = true
      · rw [if_pos hc, if_pos hc, List.map_cons, List.sum_cons]
      · rw [if_neg hc, if_neg hc, zero_add]
    rw [hsplit]
    by_cases h1 : monthKey t.date = k <;>
      by_cases h2 : (t.type == "Доход") = true <;>
      simp [h1, h2] <;> ring

theorem expAt_foldl (ts : List Transaction) (m : List (String × ℚ × ℚ))
    (k : String) :
    expAt (ts.foldl monthStep m) k = expAt m k + monthOther ts k := by
  induction ts generalizing m with
  | nil => simp [monthOther, expAt]
  | cons t ts ih =>
    rw [List.foldl_cons, ih, monthStep, expAt_addToMonth]
    have hsplit : monthOther (t :: ts) k
        = (if !(t.type == "Доход") && (monthKey t.date == k)
            then t.amount else 0) + monthOther ts k := by
      unfold monthOther
      rw [List.filter_cons]
      by_cases hc : (!(t.type == "Доход") && (monthKey t.date == k)) = true
      · rw [if_pos hc, if_pos hc, List.map_cons, List.sum_cons]
      · rw [if_neg hc, if_neg hc, zero_add]
    rw [hsplit]
    by_cases h1 : monthKey t.date = k <;>
      by_cases h2 : (t.type == "Доход") = true <;>
      simp [h1, h2] <;> ring

theorem keysOf_addToMonth (m : List (String × ℚ × ℚ)) (key : String)
    (b : Bool) (a : ℚ) :
    keysOf (addToMonth m key b a)
      = if key ∈ keysOf m then keysOf m else keysOf m ++ [key] := by
  induction m with
  | nil => simp [addToMonth, keysOf]
  | cons e rest ih =>
    by_cases he : e.1 = key
    · have hmem : key ∈ keysOf (e :: rest) := by
        simp [keysOf, List.mem_cons, he.symm]
      simp [addToMonth, he, keysOf, hmem]
    · have hstep : addToMonth (e :: rest) key b a
          = e :: addToMonth rest key b a := by
        simp only [addToMonth, if_neg he]
      rw [hstep]
      by_cases hk : key ∈ keysOf rest
      · have hmem : key ∈ keysOf (e :: rest) := by
          simp [keysOf] at hk ⊢
          exact Or.inr hk
        simp only [keysOf, List.map_cons] at ih ⊢
        rw [ih]
        simp only [keysOf] at hk hmem
        rw [if_pos hk, if_pos (by simpa [keysOf] using hmem)]
      · have hmem : key ∉ keysOf (e :: rest) := by
          simp [keysOf] at hk ⊢
          exact ⟨fun hh => he hh.symm, hk⟩
        simp only [keysOf, List.map_cons] at ih ⊢
        rw [ih]
        simp only [keysOf] at hk
        rw [if_neg hk, if_neg (by simpa [keysOf] using hmem)]
        rfl

theorem nodup_keysOf_addToMonth (m : List (String × ℚ × ℚ)) (key : String)
    (b : Bool) (a : ℚ) (h : (keysOf m).Nodup) :
    (keysOf (addToMonth m key b a)).Nodup := by
  rw [keysOf_addToMonth]
  by_cases hk : key ∈ keysOf m
  · rw [if_pos hk]
    exact h
  · rw [if_neg hk]
    simp [List.nodup_append, h, hk]

theorem nodup_keysOf_foldl (ts : List Transaction)
    (m : List (String × ℚ × ℚ)) (h : (keysOf m).Nodup) :
    (keysOf (ts.foldl monthStep m)).Nodup := by
  induction ts generalizing m with
  | nil => exact h
  | cons t ts ih =>
    exact ih _ (nodup_keysOf_addToMonth _ _ _ _ h)

theorem filter_key_of_nodup (m : List (String × ℚ × ℚ))
    (e : String × ℚ × ℚ) (h : (keysOf m).Nodup) (he : e ∈ m) :
    m.filter (fun x => x.1 == e.1) = [e] := by
  induction m with
  | nil => cases he
  | cons f rest ih =>
    have h' : f.1 ∉ List.map Prod.fst rest ∧ (List.map Prod.fst rest).Nodup := by
      unfold keysOf at h
      rw [List.map_cons] at h
      exact List.nodup_cons.mp h
    rcases List.mem_cons.mp he with rfl | hrest
    · rw [List.filter_cons, if_pos (by simp)]
      have hnil : rest.filter (fun x => x.1 == e.1) = [] := by
        apply List.filter_eq_nil_iff.mpr
        intro x hx
        simp only [beq_iff_eq]
        intro hxe
        exact h'.1 (hxe ▸ List.mem_map_of_mem Prod.fst hx)
      rw [hnil]
    · have hne : ¬ f.1 = e.1 := by
        intro hfe
        exact h'.1 (hfe.symm ▸ List.mem_map_of_mem Prod.fst hrest)
      rw [List.filter_cons, if_neg (by simpa using hne)]
      exact ih h'.2 hrest

theorem mem_monthsDict_sums (ts : List Transaction) (e : String × ℚ × ℚ)
    (he : e ∈ monthsDict ts) :
    e.2.1 = monthIncome ts e.1 ∧ e.2.2 = monthOther ts e.1 := by
  have hnd : (keysOf (monthsDict ts)).Nodup :=
    nodup_keysOf_foldl ts [] (by simp [keysOf])
  have hf : (monthsDict ts).filter (fun x => x.1 == e.1) = [e] :=
    filter_key_of_nodup _ _ hnd he
  have h1 : incAt (monthsDict ts) e.1 = monthIncome ts e.1 := by
    have := incAt_foldl ts [] e.1
    simpa [incAt] using this
  have h2 : expAt (monthsDict ts) e.1 = monthOther ts e.1 := by
    have := expAt_foldl ts [] e.1
    simpa [expAt] using this
  constructor
  · rw [← h1]
    unfold incAt
    rw [hf]
    simp
  · rw [← h2]
    unfold expAt
    rw [hf]
    simp

/-- C4: for every transaction sequence satisfying the data-model typing
(each type is Income or Expense, each date well-formed), the entries of
`monthly_series` are strictly ascending by month key, and each entry's
income (resp. expense) component is the sum of amounts of Income
(resp. Expense) transactions whose date falls in that month. -/
theorem monthly_series_spec (ts : List Transaction)
    (hty : ∀ t ∈ ts, t.type = "Доход" ∨ t.type = "Расход")
    (hdate : ∀ t ∈ ts, validDate t.date = true) :
    ((monthly_series ts).map Prod.fst).Pairwise (· < ·)
    ∧ ∀ e ∈ monthly_series ts,
        e.2.1 = ((ts.filter (fun t =>
            t.type == "Доход" && monthKey t.date == e.1)).map
              (fun t => t.amount)).sum
        ∧ e.2.2 = ((ts.filter (fun t =>
            t.type == "Расход" && monthKey t.date == e.1)).map
              (fun t => t.amount)).sum := by
  have _ := hdate
  haveI hTot : IsTotal (String × ℚ × ℚ) (fun a b => a.1 ≤ b.1) :=
    ⟨fun a b => le_total a.1 b.1⟩
  haveI hTrans : IsTrans (String × ℚ × ℚ) (fun a b => a.1 ≤ b.1) :=
    ⟨fun _ _ _ hab hbc => le_trans hab hbc⟩
  have hperm : List.Perm (monthly_series ts) (monthsDict ts) :=
    List.perm_insertionSort _ _
  constructor
  · have hsorted : (monthly_series ts).Sorted (fun a b => a.1 ≤ b.1) :=
      List.sorted_insertionSort _ _
    have hle : ((monthly_series ts).map Prod.fst).Pairwise (· ≤ ·) :=
      List.pairwise_map.mpr hsorted
    have hnd : ((monthly_series ts).map Prod.fst).Nodup := by
      have h0 : (keysOf (monthsDict ts)).Nodup :=
        nodup_keysOf_foldl ts [] (by simp [keysOf])
      exact ((hperm.map Prod.fst).nodup_iff).mpr h0
    exact (hle.and hnd).imp fun h => lt_of_le_of_ne h.1 h.2
  · intro e he
    have hmem : e ∈ monthsDict ts := hperm.mem_iff.mp he
    obtain ⟨h1, h2⟩ := mem_monthsDict_sums ts e hmem
    refine ⟨h1, ?_⟩
    rw [h2]
    unfold monthOther
    have hfc : List.filter
        (fun t => !(t.type == "Доход") && monthKey t.date == e.1) ts
        = List.filter
            (fun t => t.type == "Расход" && monthKey t.date == e.1) ts := by
      apply List.filter_congr
      intro t ht
      rcases hty t ht with hI | hE
      · simp [hI]
      · simp [hE]
    rw [hfc]

/-- Witness for C4 at the worked example of the design document. -/
theorem monthly_series_spec_witness :
    (∀ t ∈ exampleTransactions, t.type = "Доход" ∨ t.type = "Расход")
    ∧ (∀ t ∈ exampleTransactions, validDate t.date = true)
    ∧ ((monthly_series exampleTransactions).map Prod.fst).Pairwise
        (fun a b => a < b) := by
  refine ⟨by decide, by decide, ?_⟩
  exact (monthly_series_spec exampleTransactions (by decide) (by decide)).1

theorem importStep_foldl (rows : List String) (s : AppState) :
    (rows.foldl importStep s).store.transactions
      = s.store.transactions ++ rows.filterMap parseCsvRow
    ∧ (rows.foldl importStep s).store.budget_limits = s.store.budget_limits
    ∧ (rows.foldl importStep s).store.saving_goals = s.store.saving_goals
    ∧ (rows.foldl importStep s).store.regular_payments
        = s.store.regular_payments
    ∧ (rows.foldl importStep s).saveCount = s.saveCount := by
  induction rows generalizing s with
  | nil => simp
  | cons r rows ih =>
    rw [List.foldl_cons]
    rcases hr : parseCsvRow r with _ | t
    · have hstep : importStep s r = s := by
        simp [importStep, hr]
      rw [hstep, List.filterMap_cons_none hr]
      exact ih s
    · have hstep : importStep s r
          = { s with store := { s.store with
              transactions := s.store.transactions ++ [t] } } := by
        simp [importStep, hr]
      rw [hstep, List.filterMap_cons_some hr]
      obtain ⟨h1, h2, h3, h4, h5⟩ := ih { s with store := { s.store with
        transactions := s.store.transactions ++ [t] } }
      refine ⟨?_, h2, h3, h4, h5⟩
      rw [h1]
      simp

/-- C8: tabular import skips the header line, appends exactly the
successfully parsed rows in order (a row with fewer than five fields or an
unparseable amount contributes nothing), leaves the other collections
untouched, and persists exactly once after the batch; the example row
`2024-03-01;Expense;Transport;99,50;Bus` parses to one transaction with
amount `99.50` and category `Transport`. -/
theorem import_from_csv_spec (s : AppState) (header : String)
    (rows : List String) :
    (import_from_csv (header :: rows) s).store.transactions
      = s.store.transactions ++ rows.filterMap parseCsvRow
    ∧ (import_from_csv (header :: rows) s).store.budget_limits
        = s.store.budget_limits
    ∧ (import_from_csv (header :: rows) s).store.saving_goals
        = s.store.saving_goals
    ∧ (import_from_csv (header :: rows) s).store.regular_payments
        = s.store.regular_payments
    ∧ (import_from_csv (header :: rows) s).saveCount = s.saveCount + 1
    ∧ parseCsvRow "2024-03-01;Expense;Transport;99,50;Bus"
        = some { type := "Expense", category := "Transport",
                 amount := 199 / 2, date := "2024-03-01",
                 description := "Bus" }
    ∧ parseCsvRow "2024-03-01;Расход;Еда" = none
    ∧ parseCsvRow "2024-03-01;Расход;Еда;12f;обед" = none := by
  obtain ⟨h1, h2, h3, h4, h5⟩ := importStep_foldl rows s
  refine ⟨?_, ?_, ?_, ?_, ?_, ?_, ?_, ?_⟩
  · simpa [import_from_csv, saveData] using h1
  · simpa [import_from_csv, saveData] using h2
  · simpa [import_from_csv, saveData] using h3
  · simpa [import_from_csv, saveData] using h4
  · simp [import_from_csv, saveData, h5]
  · simp +decide [parseCsvRow, splitSemicolons, trimChars, replaceComma,
      pyFloat, parseExponent, digitsToNat, applyExponent]
    norm_num
  · simp +decide [parseCsvRow, splitSemicolons, trimChars]
  · simp +decide [parseCsvRow, splitSemicolons, trimChars, replaceComma,
      pyFloat, parseExponent, digitsToNat, applyExponent]

theorem decodeList_encode {α : Type} (dec : Json → Option α)
    (enc : α → Json) (l : List α) (h : ∀ x ∈ l, dec (enc x) = some x) :
    decodeList dec (l.map enc) = some l := by
  induction l with
  | nil => rfl
  | cons x xs ih =>
    rw [List.map_cons]
    have hx := h x (List.mem_cons_self x xs)
    have hxs := ih (fun y hy => h y (List.mem_cons_of_mem x hy))
    simp [decodeList, hx, hxs]

theorem decodeTransaction_encode (t : Transaction) :
    decodeTransaction (encodeTransaction t) = some t := rfl

theorem decodeGoal_encode (g : SavingGoal) :
    decodeGoal (encodeGoal g) = some g := rfl

theorem decodePayment_encode (p : RegularPayment) :
    decodePayment (encodePayment p) = some p := by
  rcases p with ⟨n, a, c, f, lp⟩
  cases lp <;> rfl

theorem decodeLimits_encode (l : List (String × ℚ)) :
    decodeLimits (l.map (fun p => (p.1, Json.num p.2))) = some l := by
  induction l with
  | nil => rfl
  | cons p rest ih =>
    rcases p with ⟨k, v⟩
    simp [List.map_cons, decodeLimits, asNum, ih]

/-- C9: serializing the store to the persisted document layout and
reloading that document reproduces the store exactly — every sequence
element-for-element in order, and the budget-limit mapping with the same
keys and values. -/
theorem save_load_roundtrip (s : Store) :
    load_data (save_data s) = some s := by
  have htx : decodeList decodeTransaction
      (s.transactions.map encodeTransaction) = some s.transactions :=
    decodeList_encode _ _ _ (fun x _ => decodeTransaction_encode x)
  have hg : decodeList decodeGoal (s.saving_goals.map encodeGoal)
      = some s.saving_goals :=
    decodeList_encode _ _ _ (fun x _ => decodeGoal_encode x)
  have hp : decodeList decodePayment
      (s.regular_payments.map encodePayment) = some s.regular_payments :=
    decodeList_encode _ _ _ (fun x _ => decodePayment_encode x)
  have hl := decodeLimits_encode s.budget_limits
  simp +decide [load_data, save_data, jsonGet, List.lookup, htx, hg, hp, hl]

/-- C10: tabular import appends the row type and category verbatim with no
membership check against the taxonomy: importing the example row yields a
transaction whose category is not in the category list of its type,
violating the data-model invariant. -/
theorem import_breaks_category_invariant :
    ((import_from_csv
        ["Дата;Тип;Категория;Сумма;Описание",
         "2024-03-01;Expense;Transport;99,50;Bus"] emptyState
      ).store.transactions
      = [{ type := "Expense", category := "Transport", amount := 199 / 2,
           date := "2024-03-01", description := "Bus" }])
    ∧ validTransaction
        { type := "Expense", category := "Transport", amount := 199 / 2,
          date := "2024-03-01", description := "Bus" } = false := by
  constructor
  · have hrow : parseCsvRow "2024-03-01;Expense;Transport;99,50;Bus"
        = some { type := "Expense", category := "Transport",
                 amount := 199 / 2, date := "2024-03-01",
                 description := "Bus" } := by
      simp +decide [parseCsvRow, splitSemicolons, trimChars, replaceComma,
        pyFloat, parseExponent, digitsToNat, applyExponent]
      norm_num
    simp [import_from_csv, importStep, hrow, saveData, emptyState, emptyStore]
  · decide

end SmartBudget
